import Mathlib

/-!
Shallow embedding of the wallet-service transfer engine
(`src/utils/walletService.js`) together with its data model
(`src/models/Account.js`, `AssetType.js`, `Transaction.js`, `LedgerEntry.js`).

Modelling conventions:
* Account and transaction handles (Mongo ObjectIds) are modelled as `Nat`.
  The JS `Array.sort()` on ObjectIds compares their fixed-length hex string
  forms, which coincides with the numeric order of the handles; we use the
  `Nat` order for the deterministic lock order.
* JS numbers carrying money amounts are modelled as `ℚ`.
* Thrown JS `Error` values are modelled by the inductive `WErr`; the
  `message` function reproduces the message strings of the source.
* Every `await` on the store is a potential interleaving point.  Interference
  by concurrent actors is modelled by lists of `Action` values applied at the
  await points that the verified claims are about (`Env`).  `Env.idle` is the
  interference-free schedule.
-/

set_option autoImplicit false

namespace Wallet

/-- `accountType` field of `src/models/Account.js`. -/
inductive AccountType where
  | user
  | system
  deriving DecidableEq, Repr

/-- An account document (`src/models/Account.js`).  The handle (`_id`) is the
key under which the account is stored in `Store.accounts`. -/
structure Account where
  userId : String
  accountType : AccountType
  assetType : Nat
  balance : ℚ
  isActive : Bool
  deriving DecidableEq, Repr

/-- An asset type document (`src/models/AssetType.js`).  Fields not used by
the transfer engine are omitted except `decimalPlaces`, which the engine is
claimed to consult for rounding. -/
structure AssetType where
  code : String
  decimalPlaces : Nat
  isActive : Bool
  deriving DecidableEq, Repr

/-- `entryType` field of `src/models/LedgerEntry.js`. -/
inductive EntryType where
  | debit
  | credit
  deriving DecidableEq, Repr

/-- `status` field of `src/models/Transaction.js`. -/
inductive TxStatus where
  | pending
  | completed
  | failed
  deriving DecidableEq, Repr

/-- `type` field of `src/models/Transaction.js`. -/
inductive TxType where
  | topup
  | bonus
  | spend
  | adjustment
  deriving DecidableEq, Repr

/-- A transaction document (`src/models/Transaction.js`). -/
structure Txn where
  id : Nat
  idempotencyKey : String
  assetType : Nat
  fromAccount : Nat
  toAccount : Nat
  amount : ℚ
  type : TxType
  description : String
  status : TxStatus
  failureReason : Option String
  ledgerEntries : List Nat
  deriving DecidableEq, Repr

/-- A ledger entry document (`src/models/LedgerEntry.js`). -/
structure LedgerEntry where
  id : Nat
  transactionId : Nat
  account : Nat
  assetType : Nat
  entryType : EntryType
  amount : ℚ
  balanceAfter : ℚ
  description : String
  deriving DecidableEq, Repr

/-- The MongoDB collections the service reads and writes, plus fresh-id
counters for the documents the engine inserts. -/
structure Store where
  assetTypes : List (Nat × AssetType)
  accounts : List (Nat × Account)
  transactions : List Txn
  ledger : List LedgerEntry
  nextTxId : Nat
  nextEntryId : Nat
  deriving DecidableEq, Repr

/-- Errors thrown by `walletService.js`, one constructor per `throw` site. -/
inductive WErr where
  | amountNotPositive
  | srcNotFound (id : Nat)
  | dstNotFound (id : Nat)
  | srcInactive
  | dstInactive
  | assetMismatch
  | storeValidation
  | txConflict
  | insufficientBalance (userId : String) (balance : ℚ) (needed : ℚ)
  | creditFailed (userId : String)
  | walletNotFound (userId : String)
  | walletInactive (userId : String)
  | systemAccountNotFound (name : String)
  | assetNotFound (code : String)
  deriving DecidableEq, Repr

/-- The `message` of the thrown JS `Error`, mirroring the template strings of
the source (numeric interpolations rendered through `toString`). -/
def WErr.message : WErr → String
  | .amountNotPositive => "Amount must be a positive number"
  | .srcNotFound i => "Source account not found: " ++ toString i
  | .dstNotFound i => "Destination account not found: " ++ toString i
  | .srcInactive => "Source account is inactive"
  | .dstInactive => "Destination account is inactive"
  | .assetMismatch => "Account asset type mismatch"
  | .storeValidation => "Transaction validation failed"
  | .txConflict => "Transaction conflict — please retry"
  | .insufficientBalance u b a =>
      "Insufficient balance. Account " ++ u ++ " has " ++ toString b
        ++ ", needs " ++ toString a ++ "."
  | .creditFailed u => "Failed to credit account " ++ u
  | .walletNotFound u => "Wallet not found for user: " ++ u
  | .walletInactive u => "Wallet is inactive for user: " ++ u
  | .systemAccountNotFound n => "System account not found: " ++ n
  | .assetNotFound c => "Asset type not found or inactive: " ++ c

/-- `Account.findById`. -/
def Store.findAccount (s : Store) (id : Nat) : Option Account :=
  (s.accounts.find? (fun pr => pr.1 == id)).map Prod.snd

/-- `Transaction.findOne({ idempotencyKey, assetType })`. -/
def Store.findTxn (s : Store) (key : String) (asset : Nat) : Option Txn :=
  s.transactions.find? (fun t => t.idempotencyKey == key && t.assetType == asset)

/-- Rewrite every account stored under handle `id`. -/
def Store.updateAccount (s : Store) (id : Nat) (f : Account → Account) : Store :=
  { s with accounts := s.accounts.map (fun pr => if pr.1 == id then (pr.1, f pr.2) else pr) }

/-- `Account.findOneAndUpdate(filter, update, { new: true })`: apply `f` to
the account under `id` when `pred` holds of it, returning the updated
document, else return the `null` sentinel. -/
def Store.condUpdate (s : Store) (id : Nat) (pred : Account → Bool) (f : Account → Account) :
    Option (Account × Store) :=
  match s.findAccount id with
  | none => none
  | some a =>
      if pred a then some (f a, s.updateAccount id f)
      else none

/-- The `min` validator on `Transaction.amount` and `LedgerEntry.amount`
(`min: [0.000001, 'Amount must be positive']` in the schemas). -/
def minAmount : ℚ := 1 / 1000000

/-- Mongoose insert failures the engine distinguishes: the duplicate-key
error `E11000` of the unique `(idempotencyKey, assetType)` index versus any
other (schema-validation) error, which has no `code === 11000`. -/
inductive InsertErr where
  | duplicateKey
  | validation
  deriving DecidableEq, Repr

/-- `Transaction.create({...})`: schema validation first (mongoose runs the
validators before the insert), then the unique-index check, then the insert
of the new `pending` document. -/
def Store.createTransaction (s : Store) (key : String) (asset fromId toId : Nat)
    (amount : ℚ) (ty : TxType) (descr : String) : Except InsertErr (Txn × Store) :=
  if amount < minAmount then .error .validation
  else if (s.findTxn key asset).isSome then .error .duplicateKey
  else
    let t : Txn :=
      { id := s.nextTxId, idempotencyKey := key, assetType := asset,
        fromAccount := fromId, toAccount := toId, amount := amount, type := ty,
        description := descr, status := .pending, failureReason := none,
        ledgerEntries := [] }
    .ok (t, { s with transactions := s.transactions ++ [t], nextTxId := s.nextTxId + 1 })

/-- `LedgerEntry.create({...})`.  The `min` validator on `amount` cannot fire
here because the engine only reaches this step with the amount that already
passed the identical validator on `Transaction.create`. -/
def Store.createEntry (s : Store) (txId acctId asset : Nat) (et : EntryType)
    (amount balAfter : ℚ) (descr : String) : LedgerEntry × Store :=
  let e : LedgerEntry :=
    { id := s.nextEntryId, transactionId := txId, account := acctId, assetType := asset,
      entryType := et, amount := amount, balanceAfter := balAfter, description := descr }
  (e, { s with ledger := s.ledger ++ [e], nextEntryId := s.nextEntryId + 1 })

/-- `Transaction.findByIdAndUpdate(txId, { status: 'failed', failureReason })`. -/
def Store.markFailed (s : Store) (txId : Nat) (reason : String) : Store :=
  { s with
    transactions := s.transactions.map (fun t =>
      if t.id == txId then { t with status := .failed, failureReason := some reason } else t) }

/-- `transaction.save()` after setting `status = 'completed'` and
`ledgerEntries` on the in-memory document. -/
def Store.saveCompleted (s : Store) (txId : Nat) (entries : List Nat) : Store :=
  { s with
    transactions := s.transactions.map (fun t =>
      if t.id == txId then { t with status := .completed, ledgerEntries := entries } else t) }

/-- One effect a concurrent actor can apply to the store at an await point of
the engine: flip the active flag of an account, insert a transaction (a
racing worker creating its own `pending` record), or shift a balance. -/
inductive Action where
  | setActive (accountId : Nat) (val : Bool)
  | insertTxn (t : Txn)
  | adjustBalance (accountId : Nat) (delta : ℚ)
  deriving DecidableEq, Repr

def applyAction (s : Store) : Action → Store
  | .setActive i v => s.updateAccount i (fun a => { a with isActive := v })
  | .insertTxn t => { s with transactions := s.transactions ++ [t] }
  | .adjustBalance i d => s.updateAccount i (fun a => { a with balance := a.balance + d })

def applyActions (s : Store) (l : List Action) : Store := l.foldl applyAction s

/-- Concurrent interference injected at the await points of a single
`executeTransfer` run.  `idle` is the interference-free schedule. -/
structure Env where
  beforeInsert : List Action
  backoff : List Action
  beforeFirstUpdate : List Action
  betweenUpdates : List Action
  deriving DecidableEq, Repr

def Env.idle : Env := ⟨[], [], [], []⟩

@[simp]
theorem Env.idle_beforeInsert : Env.idle.beforeInsert = [] := rfl

@[simp]
theorem Env.idle_backoff : Env.idle.backoff = [] := rfl

@[simp]
theorem Env.idle_beforeFirstUpdate : Env.idle.beforeFirstUpdate = [] := rfl

@[simp]
theorem Env.idle_betweenUpdates : Env.idle.betweenUpdates = [] := rfl

/-- The parameter object of `_executeTransfer`. -/
structure Params where
  idempotencyKey : String
  fromAccountId : Nat
  toAccountId : Nat
  assetTypeId : Nat
  amount : ℚ
  type : TxType
  description : String
  deriving DecidableEq, Repr

/-- The `{ transaction, isIdempotentReplay }` result of `_executeTransfer`. -/
structure TransferResult where
  transaction : Txn
  isIdempotentReplay : Bool
  deriving DecidableEq, Repr

/-- `_atomicDebit(account, amount, transactionId)`: conditional atomic update
with predicate `balance ≥ amount AND isActive`, keyed on the id of the
`account` snapshot; the error message interpolates the snapshot fields. -/
def atomicDebit (s : Store) (acct : Account) (acctId : Nat) (amount : ℚ) :
    Except WErr (Account × Store) :=
  match s.condUpdate acctId (fun a => amount ≤ a.balance && a.isActive)
      (fun a => { a with balance := a.balance - amount }) with
  | some r => .ok r
  | none => .error (.insufficientBalance acct.userId acct.balance amount)

/-- `_atomicCredit(account, amount, transactionId)`: unconditional increment
guarded only by `isActive`. -/
def atomicCredit (s : Store) (acct : Account) (acctId : Nat) (amount : ℚ) :
    Except WErr (Account × Store) :=
  match s.condUpdate acctId (fun a => a.isActive)
      (fun a => { a with balance := a.balance + amount }) with
  | some r => .ok r
  | none => .error (.creditFailed acct.userId)

/-- Step 5 of `_executeTransfer`: the deterministic lock order and the two
atomic balance updates.  The second component is ghost data recording which
`findOneAndUpdate` calls were issued, in issue order (the second update is
only issued when the first succeeded, exactly as in the source).  An error
carries the store at the point of failure. -/
def applyUpdates (env : Env) (s2 : Store) (fromAccount toAccount : Account) (p : Params) :
    Except (WErr × Store) (Account × Account × Store) × List (EntryType × Nat) :=
  let s3 := applyActions s2 env.beforeFirstUpdate
  let firstId := min p.fromAccountId p.toAccountId
  let processInOrder := firstId == p.fromAccountId
  if processInOrder then
    match atomicDebit s3 fromAccount p.fromAccountId p.amount with
    | .error e => (.error (e, s3), [(.debit, p.fromAccountId)])
    | .ok (uf, sa) =>
      let sb := applyActions sa env.betweenUpdates
      match atomicCredit sb toAccount p.toAccountId p.amount with
      | .error e => (.error (e, sb), [(.debit, p.fromAccountId), (.credit, p.toAccountId)])
      | .ok (ut, sc) => (.ok (uf, ut, sc), [(.debit, p.fromAccountId), (.credit, p.toAccountId)])
  else
    match atomicCredit s3 toAccount p.toAccountId p.amount with
    | .error e => (.error (e, s3), [(.credit, p.toAccountId)])
    | .ok (ut, sa) =>
      let sb := applyActions sa env.betweenUpdates
      match atomicDebit sb fromAccount p.fromAccountId p.amount with
      | .error e => (.error (e, sb), [(.credit, p.toAccountId), (.debit, p.fromAccountId)])
      | .ok (uf, sc) => (.ok (uf, ut, sc), [(.credit, p.toAccountId), (.debit, p.fromAccountId)])

/-- `_executeTransfer` of `src/utils/walletService.js`, step for step:
idempotency lookup, amount validation, account loads and checks, insert of
the `pending` transaction with the duplicate-key backoff path, the two
atomic balance updates in sorted-id order, the two ledger entries, the
completion save, and the catch handler that marks the transaction failed. -/
def executeTransfer (env : Env) (s : Store) (p : Params) :
    Except WErr TransferResult × Store :=
  match s.findTxn p.idempotencyKey p.assetTypeId with
  | some existing => (.ok { transaction := existing, isIdempotentReplay := true }, s)
  | none =>
    if p.amount ≤ 0 then (.error .amountNotPositive, s)
    else
      match s.findAccount p.fromAccountId with
      | none => (.error (.srcNotFound p.fromAccountId), s)
      | some fromAccount =>
        match s.findAccount p.toAccountId with
        | none => (.error (.dstNotFound p.toAccountId), s)
        | some toAccount =>
          if !fromAccount.isActive then (.error .srcInactive, s)
          else if !toAccount.isActive then (.error .dstInactive, s)
          else if fromAccount.assetType != p.assetTypeId
              || toAccount.assetType != p.assetTypeId then
            (.error .assetMismatch, s)
          else
            let s1 := applyActions s env.beforeInsert
            match s1.createTransaction p.idempotencyKey p.assetTypeId p.fromAccountId
                p.toAccountId p.amount p.type p.description with
            | .error .validation => (.error .storeValidation, s1)
            | .error .duplicateKey =>
              let s2 := applyActions s1 env.backoff
              match s2.findTxn p.idempotencyKey p.assetTypeId with
              | some raced =>
                  (.ok { transaction := raced, isIdempotentReplay := true }, s2)
              | none => (.error .txConflict, s2)
            | .ok (transaction, s2) =>
              match (applyUpdates env s2 fromAccount toAccount p).1 with
              | .error (e, sErr) => (.error e, sErr.markFailed transaction.id e.message)
              | .ok (updatedFrom, updatedTo, s4) =>
                let (debitEntry, s5) := s4.createEntry transaction.id p.fromAccountId
                    p.assetTypeId .debit p.amount updatedFrom.balance p.description
                let (creditEntry, s6) := s5.createEntry transaction.id p.toAccountId
                    p.assetTypeId .credit p.amount updatedTo.balance p.description
                let finalTx := { transaction with
                                 status := .completed,
                                 ledgerEntries := [debitEntry.id, creditEntry.id] }
                (.ok { transaction := finalTx, isIdempotentReplay := false },
                 s6.saveCompleted transaction.id [debitEntry.id, creditEntry.id])

/-- `_getUserAccount(userId, assetTypeId)`: lookup by `(userId, assetType)`,
not-found check, then the activity check. -/
def getUserAccount (s : Store) (userId : String) (assetTypeId : Nat) :
    Except WErr (Nat × Account) :=
  match s.accounts.find? (fun pr =>
      pr.2.userId == userId && pr.2.assetType == assetTypeId) with
  | none => .error (.walletNotFound userId)
  | some pr =>
      if !pr.2.isActive then .error (.walletInactive userId)
      else .ok pr

/-- `_getSystemAccount(userId, assetTypeId)`: lookup restricted to
`accountType: 'system'`, with only a not-found check. -/
def getSystemAccount (s : Store) (userId : String) (assetTypeId : Nat) :
    Except WErr (Nat × Account) :=
  match s.accounts.find? (fun pr =>
      pr.2.userId == userId && pr.2.assetType == assetTypeId
        && pr.2.accountType == AccountType.system) with
  | none => .error (.systemAccountNotFound userId)
  | some pr => .ok pr

/-- Half-even (bankers) rounding to `d` decimal places, modelled from the
words of the spec ("rounds (half-even) to the AssetTypes decimalPlaces");
the source contains no rounding, so this definition exists only to compare
the spec with the code. -/
def specRoundHalfEven (q : ℚ) (d : Nat) : ℚ :=
  let m : ℚ := (10 : ℚ) ^ d
  let x := q * m
  let n : ℤ := ⌊x⌋
  let frac := x - n
  let r : ℤ :=
    if frac < 1 / 2 then n
    else if 1 / 2 < frac then n + 1
    else if n % 2 = 0 then n else n + 1
  (r : ℚ) / m

/-! ### Classification of interference actions -/

/-- Actions that modify the transactions collection. -/
def Action.touchesTxns : Action → Bool
  | .insertTxn _ => true
  | _ => false

/-- Actions that modify an account balance. -/
def Action.touchesBalance : Action → Bool
  | .adjustBalance _ _ => true
  | _ => false

/-- The transactions inserted by a list of interference actions, in order. -/
def insertedTxns (l : List Action) : List Txn :=
  l.filterMap fun a =>
    match a with
    | .insertTxn t => some t
    | _ => none

/-- The schedule never touches the transactions collection. -/
def Env.noTxnActions (e : Env) : Bool :=
  (e.beforeInsert.all fun a => !a.touchesTxns) &&
  (e.backoff.all fun a => !a.touchesTxns) &&
  (e.beforeFirstUpdate.all fun a => !a.touchesTxns) &&
  (e.betweenUpdates.all fun a => !a.touchesTxns)

/-- The schedule never changes an account balance. -/
def Env.noBalanceActions (e : Env) : Bool :=
  (e.beforeInsert.all fun a => !a.touchesBalance) &&
  (e.backoff.all fun a => !a.touchesBalance) &&
  (e.beforeFirstUpdate.all fun a => !a.touchesBalance) &&
  (e.betweenUpdates.all fun a => !a.touchesBalance)

/-- All transaction ids in the store are below the fresh-id counter, as the
store keeps them by construction. -/
def Store.wf (s : Store) : Bool :=
  s.transactions.all fun t => t.id < s.nextTxId

/-! ### Helper lemmas about the store primitives -/

@[simp]
theorem applyActions_nil (s : Store) : applyActions s [] = s := rfl

@[simp]
theorem updateAccount_transactions (s : Store) (i : Nat) (f : Account → Account) :
    (s.updateAccount i f).transactions = s.transactions := rfl

@[simp]
theorem updateAccount_ledger (s : Store) (i : Nat) (f : Account → Account) :
    (s.updateAccount i f).ledger = s.ledger := rfl

@[simp]
theorem updateAccount_nextTxId (s : Store) (i : Nat) (f : Account → Account) :
    (s.updateAccount i f).nextTxId = s.nextTxId := rfl

@[simp]
theorem updateAccount_nextEntryId (s : Store) (i : Nat) (f : Account → Account) :
    (s.updateAccount i f).nextEntryId = s.nextEntryId := rfl

@[simp]
theorem saveCompleted_ledger (s : Store) (i : Nat) (es : List Nat) :
    (s.saveCompleted i es).ledger = s.ledger := rfl

@[simp]
theorem saveCompleted_nextTxId (s : Store) (i : Nat) (es : List Nat) :
    (s.saveCompleted i es).nextTxId = s.nextTxId := rfl

@[simp]
theorem createEntry_nextTxId (s : Store) (txId acctId asset : Nat) (et : EntryType)
    (amount balAfter : ℚ) (d : String) :
    ((s.createEntry txId acctId asset et amount balAfter d).2).nextTxId =
      s.nextTxId := rfl

@[simp]
theorem createEntry_ledger (s : Store) (txId acctId asset : Nat) (et : EntryType)
    (amount balAfter : ℚ) (d : String) :
    ((s.createEntry txId acctId asset et amount balAfter d).2).ledger =
      s.ledger ++ [(s.createEntry txId acctId asset et amount balAfter d).1] := rfl

@[simp]
theorem markFailed_accounts (s : Store) (i : Nat) (m : String) :
    (s.markFailed i m).accounts = s.accounts := rfl

@[simp]
theorem markFailed_findAccount (s : Store) (i : Nat) (m : String) (j : Nat) :
    (s.markFailed i m).findAccount j = s.findAccount j := rfl

@[simp]
theorem markFailed_ledger (s : Store) (i : Nat) (m : String) :
    (s.markFailed i m).ledger = s.ledger := rfl

@[simp]
theorem saveCompleted_findAccount (s : Store) (i : Nat) (es : List Nat) (j : Nat) :
    (s.saveCompleted i es).findAccount j = s.findAccount j := rfl

@[simp]
theorem createEntry_findAccount (s : Store) (txId acctId asset : Nat) (et : EntryType)
    (amount balAfter : ℚ) (d : String) (j : Nat) :
    ((s.createEntry txId acctId asset et amount balAfter d).2).findAccount j =
      s.findAccount j := rfl

@[simp]
theorem createEntry_transactions (s : Store) (txId acctId asset : Nat) (et : EntryType)
    (amount balAfter : ℚ) (d : String) :
    ((s.createEntry txId acctId asset et amount balAfter d).2).transactions =
      s.transactions := rfl

theorem findAccount_updateAccount (s : Store) (i : Nat) (f : Account → Account) (j : Nat) :
    (s.updateAccount i f).findAccount j =
      if j = i then (s.findAccount j).map f else s.findAccount j := by
  unfold Store.updateAccount Store.findAccount
  simp only [List.find?_map]
  have hpred : ((fun pr : Nat × Account => pr.1 == j) ∘
      (fun pr : Nat × Account => if pr.1 == i then (pr.1, f pr.2) else pr)) =
      fun pr : Nat × Account => pr.1 == j := by
    funext pr
    by_cases h : pr.1 = i <;> simp [h]
  rw [hpred]
  cases hf : s.accounts.find? fun pr : Nat × Account => pr.1 == j with
  | none => by_cases hij : j = i <;> simp [hf, hij]
  | some pr0 =>
    have h1 : pr0.1 = j := by simpa using List.find?_some hf
    by_cases hij : j = i
    · subst hij
      simp [hf, h1]
    · have h2 : pr0.1 ≠ i := by rw [h1]; exact hij
      simp [hf, hij, h2]

theorem applyActions_cons (s : Store) (a : Action) (l : List Action) :
    applyActions s (a :: l) = applyActions (applyAction s a) l := rfl

theorem applyActions_ledger (l : List Action) (s : Store) :
    (applyActions s l).ledger = s.ledger := by
  induction l generalizing s with
  | nil => rfl
  | cons a l ih =>
    rw [applyActions_cons, ih]
    cases a <;> rfl

theorem applyActions_nextTxId (l : List Action) (s : Store) :
    (applyActions s l).nextTxId = s.nextTxId := by
  induction l generalizing s with
  | nil => rfl
  | cons a l ih =>
    rw [applyActions_cons, ih]
    cases a <;> rfl

theorem applyActions_nextEntryId (l : List Action) (s : Store) :
    (applyActions s l).nextEntryId = s.nextEntryId := by
  induction l generalizing s with
  | nil => rfl
  | cons a l ih =>
    rw [applyActions_cons, ih]
    cases a <;> rfl

theorem applyActions_transactions (l : List Action) (s : Store) :
    (applyActions s l).transactions = s.transactions ++ insertedTxns l := by
  induction l generalizing s with
  | nil => simp [insertedTxns]
  | cons a l ih =>
    rw [applyActions_cons, ih]
    cases a with
    | setActive i v => simp [applyAction, insertedTxns, List.filterMap_cons]
    | adjustBalance i d => simp [applyAction, insertedTxns, List.filterMap_cons]
    | insertTxn t =>
      simp [applyAction, insertedTxns, List.filterMap_cons]

theorem insertedTxns_of_noTxn {l : List Action} (h : l.all (fun a => !a.touchesTxns)) :
    insertedTxns l = [] := by
  induction l with
  | nil => rfl
  | cons a l ih =>
    simp only [List.all_cons, Bool.and_eq_true] at h
    cases a with
    | insertTxn t => simp [Action.touchesTxns] at h
    | setActive i v => exact ih h.2
    | adjustBalance i d => exact ih h.2

theorem applyActions_transactions_of_noTxn {l : List Action} (s : Store)
    (h : l.all (fun a => !a.touchesTxns)) :
    (applyActions s l).transactions = s.transactions := by
  rw [applyActions_transactions, insertedTxns_of_noTxn h, List.append_nil]

theorem applyActions_findAccount_balance {l : List Action} (s : Store)
    (h : l.all (fun a => !a.touchesBalance)) (j : Nat) :
    ((applyActions s l).findAccount j).map Account.balance =
      (s.findAccount j).map Account.balance := by
  induction l generalizing s with
  | nil => rfl
  | cons a l ih =>
    simp only [List.all_cons, Bool.and_eq_true] at h
    rw [applyActions_cons, ih _ h.2]
    cases a with
    | insertTxn t => rfl
    | adjustBalance i d => simp [Action.touchesBalance] at h
    | setActive i v =>
      show (((s.updateAccount i _).findAccount j).map Account.balance) = _
      rw [findAccount_updateAccount]
      by_cases hij : j = i
      · subst hij
        simp [Option.map_map]
        cases s.findAccount j <;> rfl
      · simp [hij]

theorem condUpdate_ok {s : Store} {id : Nat} {pred : Account → Bool}
    {f : Account → Account} {a : Account} {s2 : Store}
    (h : s.condUpdate id pred f = some (a, s2)) :
    ∃ b, s.findAccount id = some b ∧ pred b = true ∧ a = f b ∧
      s2 = s.updateAccount id f := by
  unfold Store.condUpdate at h
  split at h
  · cases h
  · rename_i b hb
    split at h
    · rename_i hp
      simp only [Option.some.injEq, Prod.mk.injEq] at h
      exact ⟨b, hb, hp, h.1.symm, h.2.symm⟩
    · cases h

theorem atomicDebit_ok {s : Store} {acct : Account} {acctId : Nat} {amount : ℚ}
    {u : Account} {s' : Store}
    (h : atomicDebit s acct acctId amount = .ok (u, s')) :
    ∃ b, s.findAccount acctId = some b ∧ amount ≤ b.balance ∧ b.isActive = true ∧
      u = { b with balance := b.balance - amount } ∧
      s' = s.updateAccount acctId
        (fun a => { a with balance := a.balance - amount }) := by
  unfold atomicDebit at h
  split at h
  · rename_i pr hc
    simp only [Except.ok.injEq] at h
    obtain ⟨b, hb, hp, ha, hs⟩ := condUpdate_ok (h ▸ hc)
    simp only [Bool.and_eq_true, decide_eq_true_eq] at hp
    exact ⟨b, hb, hp.1, hp.2, ha, hs⟩
  · cases h

theorem atomicCredit_ok {s : Store} {acct : Account} {acctId : Nat} {amount : ℚ}
    {u : Account} {s' : Store}
    (h : atomicCredit s acct acctId amount = .ok (u, s')) :
    ∃ b, s.findAccount acctId = some b ∧ b.isActive = true ∧
      u = { b with balance := b.balance + amount } ∧
      s' = s.updateAccount acctId
        (fun a => { a with balance := a.balance + amount }) := by
  unfold atomicCredit at h
  split at h
  · rename_i pr hc
    simp only [Except.ok.injEq] at h
    obtain ⟨b, hb, hp, ha, hs⟩ := condUpdate_ok (h ▸ hc)
    exact ⟨b, hb, hp, ha, hs⟩
  · cases h

theorem atomicDebit_err {s : Store} {acct : Account} {acctId : Nat} {amount : ℚ}
    {e : WErr} (h : atomicDebit s acct acctId amount = .error e) :
    e = .insufficientBalance acct.userId acct.balance amount := by
  unfold atomicDebit at h
  split at h
  · cases h
  · simp only [Except.error.injEq] at h
    exact h.symm

theorem atomicCredit_err {s : Store} {acct : Account} {acctId : Nat} {amount : ℚ}
    {e : WErr} (h : atomicCredit s acct acctId amount = .error e) :
    e = .creditFailed acct.userId := by
  unfold atomicCredit at h
  split at h
  · cases h
  · simp only [Except.error.injEq] at h
    exact h.symm

/-! ### Concrete fixtures used by witnesses and counterexamples -/

instance {ε α : Type} [DecidableEq ε] [DecidableEq α] : DecidableEq (Except ε α) := fun a b =>
  match a, b with
  | .error e1, .error e2 =>
      if h : e1 = e2 then isTrue (by rw [h]) else isFalse (fun hc => h (Except.error.inj hc))
  | .ok v1, .ok v2 =>
      if h : v1 = v2 then isTrue (by rw [h]) else isFalse (fun hc => h (Except.ok.inj hc))
  | .error _, .ok _ => isFalse (fun hc => Except.noConfusion hc)
  | .ok _, .error _ => isFalse (fun hc => Except.noConfusion hc)

def goldAsset : AssetType := { code := "GOLD", decimalPlaces := 0, isActive := true }

def aliceAcct : Account :=
  { userId := "alice", accountType := .user, assetType := 7, balance := 100, isActive := true }

def bobAcct : Account :=
  { userId := "bob", accountType := .user, assetType := 7, balance := 20, isActive := true }

/-- Two active user wallets in the same asset; alice holds account 1, bob
holds account 2. -/
def baseStore : Store :=
  { assetTypes := [(7, goldAsset)], accounts := [(1, aliceAcct), (2, bobAcct)],
    transactions := [], ledger := [], nextTxId := 0, nextEntryId := 0 }

def topupParams : Params :=
  { idempotencyKey := "topup-key-0001", fromAccountId := 1, toAccountId := 2,
    assetTypeId := 7, amount := 10, type := .topup, description := "" }

def bobEmpty : Account :=
  { userId := "bob", accountType := .user, assetType := 7, balance := 0, isActive := true }

def aliceLow : Account :=
  { userId := "alice", accountType := .user, assetType := 7, balance := 5, isActive := true }

/-- The destination (account 1) sorts before the source (account 2), and the
source balance 5 is short of the transfer amount 10. -/
def overdraftStore : Store :=
  { assetTypes := [(7, goldAsset)], accounts := [(1, bobEmpty), (2, aliceLow)],
    transactions := [], ledger := [], nextTxId := 0, nextEntryId := 0 }

def overdraftParams : Params :=
  { idempotencyKey := "spend-key-0001", fromAccountId := 2, toAccountId := 1,
    assetTypeId := 7, amount := 10, type := .spend, description := "" }

def storedTxn : Txn :=
  { id := 0, idempotencyKey := "replay-key-001", assetType := 7, fromAccount := 1,
    toAccount := 2, amount := 10, type := .topup, description := "",
    status := .completed, failureReason := none, ledgerEntries := [] }

/-- A store that already holds a completed transaction under
`("replay-key-001", 7)` and has no accounts at all. -/
def replayStore : Store :=
  { assetTypes := [(7, goldAsset)], accounts := [], transactions := [storedTxn],
    ledger := [], nextTxId := 1, nextEntryId := 0 }

/-- Parameters that are invalid in every way except the idempotency key: the
amount is negative and both accounts are absent. -/
def invalidParams : Params :=
  { idempotencyKey := "replay-key-001", fromAccountId := 5, toAccountId := 6,
    assetTypeId := 7, amount := -5, type := .topup, description := "" }

/-- A schedule on which a concurrent actor deactivates the destination
account 2 between the debit and the credit. -/
def deactivateDest : Env :=
  { beforeInsert := [], backoff := [], beforeFirstUpdate := [],
    betweenUpdates := [.setActive 2 false] }

def selfParams : Params :=
  { idempotencyKey := "self-key-00001", fromAccountId := 1, toAccountId := 1,
    assetTypeId := 7, amount := 10, type := .adjustment, description := "" }

def fracParams : Params :=
  { idempotencyKey := "frac-key-00001", fromAccountId := 1, toAccountId := 2,
    assetTypeId := 7, amount := 3 / 2, type := .topup, description := "" }

def racedTxn : Txn :=
  { id := 42, idempotencyKey := "race-key-00001", assetType := 7, fromAccount := 1,
    toAccount := 2, amount := 10, type := .topup, description := "",
    status := .pending, failureReason := none, ledgerEntries := [] }

/-- A schedule on which a concurrent worker inserts its own `pending`
transaction under the same key between the idempotency lookup and the
insert. -/
def raceEnv : Env :=
  { beforeInsert := [.insertTxn racedTxn], backoff := [], beforeFirstUpdate := [],
    betweenUpdates := [] }

def raceParams : Params :=
  { idempotencyKey := "race-key-00001", fromAccountId := 1, toAccountId := 2,
    assetTypeId := 7, amount := 10, type := .topup, description := "" }

def inactiveTreasury : Account :=
  { userId := "SYSTEM_TREASURY", accountType := .system, assetType := 7,
    balance := 1000, isActive := false }

def inactiveSystemStore : Store :=
  { assetTypes := [(7, goldAsset)], accounts := [(3, inactiveTreasury)],
    transactions := [], ledger := [], nextTxId := 0, nextEntryId := 0 }

/-! ### Claim theorems -/

/-- C10: the idempotency lookup precedes all validation in `executeTransfer`:
whenever a transaction is already stored under `(idempotencyKey, assetType)`,
the call returns it with `isIdempotentReplay = true` and an unchanged store,
regardless of every other parameter. -/
theorem replay_precedes_validation (env : Env) (s : Store) (p : Params) (t : Txn)
    (h : s.findTxn p.idempotencyKey p.assetTypeId = some t) :
    executeTransfer env s p = (.ok { transaction := t, isIdempotentReplay := true }, s) := by
  unfold executeTransfer
  rw [h]

/-- Witness for C10 at a concrete input: the stored transaction is replayed
even though the amount is negative and neither account exists. -/
theorem replay_precedes_validation_witness :
    executeTransfer Env.idle replayStore invalidParams =
      (.ok { transaction := storedTxn, isIdempotentReplay := true }, replayStore) ∧
    invalidParams.amount ≤ 0 ∧
    replayStore.findAccount invalidParams.fromAccountId = none :=
  ⟨replay_precedes_validation Env.idle replayStore invalidParams storedTxn (by decide),
   by decide, by decide⟩

unseal Rat.add Rat.sub Rat.mul Rat.inv in
/-- C1: evaluation at the failing input.  The destination (account 1) sorts
before the source (account 2), so the engine issues the credit first; the
debit then fails with the insufficient-balance error, the transaction is
marked failed and no ledger entries exist — but the destination balance has
moved from 0 to 10 and is never rolled back, contradicting the claim that
both balances are unchanged. -/
theorem insufficientBalance_destination_credited :
    (executeTransfer Env.idle overdraftStore overdraftParams).1 =
      .error (.insufficientBalance "alice" 5 10) ∧
    (overdraftStore.findAccount 1).map Account.balance = some 0 ∧
    ((executeTransfer Env.idle overdraftStore overdraftParams).2.findAccount 1).map
      Account.balance = some 10 ∧
    ((executeTransfer Env.idle overdraftStore overdraftParams).2.findAccount 2).map
      Account.balance = some 5 ∧
    (executeTransfer Env.idle overdraftStore overdraftParams).2.ledger = [] ∧
    ((executeTransfer Env.idle overdraftStore overdraftParams).2.findTxn
      "spend-key-0001" 7).map Txn.status = some .failed := by decide

unseal Rat.add Rat.sub Rat.mul Rat.inv in
/-- C9 counterexample: `getSystemAccount` returns a matching system account
whose `isActive` is `false` instead of failing with the inactive-wallet
error. -/
theorem systemAccount_returns_inactive :
    getSystemAccount inactiveSystemStore "SYSTEM_TREASURY" 7 =
      .ok (3, inactiveTreasury) ∧
    inactiveTreasury.isActive = false := by decide

/-- C9 amended: `getSystemAccount` fails with the not-found error exactly
when no matching system account exists; it performs no activity check,
returning any matching account verbatim (inactive ones included), and never
raises the inactive-wallet error. -/
theorem getSystemAccount_contract (s : Store) (u : String) (aid : Nat) :
    (∀ e, getSystemAccount s u aid = .error e → e = .systemAccountNotFound u) ∧
    (∀ pr, getSystemAccount s u aid = .ok pr →
      pr ∈ s.accounts ∧ pr.2.userId = u ∧ pr.2.assetType = aid ∧
      pr.2.accountType = .system) ∧
    (s.accounts.find? (fun pr => pr.2.userId == u && pr.2.assetType == aid
        && pr.2.accountType == AccountType.system) = none →
      getSystemAccount s u aid = .error (.systemAccountNotFound u)) := by
  unfold getSystemAccount
  cases hf : s.accounts.find? (fun pr => pr.2.userId == u && pr.2.assetType == aid
      && pr.2.accountType == AccountType.system) with
  | none => simp
  | some pr0 =>
    refine ⟨by simp, ?_, by simp⟩
    intro pr hpr
    simp only [Except.ok.injEq] at hpr
    subst hpr
    have hmem := List.mem_of_find?_eq_some hf
    have hmatch := List.find?_some hf
    simp only [Bool.and_eq_true, beq_iff_eq] at hmatch
    exact ⟨hmem, hmatch.1.1, hmatch.1.2, hmatch.2⟩

/-- Witness for C9 amended: applied to the store holding only the inactive
treasury account, which the lookup returns as-is. -/
theorem getSystemAccount_contract_witness :
    (3, inactiveTreasury) ∈ inactiveSystemStore.accounts ∧
    inactiveTreasury.userId = "SYSTEM_TREASURY" ∧
    inactiveTreasury.assetType = 7 ∧
    inactiveTreasury.accountType = .system :=
  (getSystemAccount_contract inactiveSystemStore "SYSTEM_TREASURY" 7).2.1
    (3, inactiveTreasury) (by decide)

unseal Rat.add Rat.sub Rat.mul Rat.inv in
/-- C2 counterexample: the destination is deactivated between the debit and
the credit, the credit fails, and the source account 1 is left at 90 = 100
minus the amount: the deducted amount is never re-added, so the source
balance is not restored. -/
theorem creditFailure_no_compensation_counterexample :
    (executeTransfer deactivateDest baseStore topupParams).1 =
      .error (.creditFailed "bob") ∧
    (baseStore.findAccount 1).map Account.balance = some 100 ∧
    ((executeTransfer deactivateDest baseStore topupParams).2.findAccount 1).map
      Account.balance = some 90 ∧
    ((executeTransfer deactivateDest baseStore topupParams).2.findTxn
      "topup-key-0001" 7).map Txn.status = some .failed := by decide

unseal Rat.add Rat.sub Rat.mul Rat.inv in
/-- C6 counterexample: a transfer whose source and destination are the same
account is not rejected: it completes, a transaction record and two ledger
entries are created, and the balance is unchanged. -/
theorem selfTransfer_not_rejected :
    ((executeTransfer Env.idle baseStore selfParams).1.map TransferResult.transaction).map
      Txn.status = .ok .completed ∧
    (executeTransfer Env.idle baseStore selfParams).2.transactions.length = 1 ∧
    (executeTransfer Env.idle baseStore selfParams).2.ledger.length = 2 ∧
    ((executeTransfer Env.idle baseStore selfParams).2.findAccount 1).map
      Account.balance = some 100 := by decide

unseal Rat.add Rat.sub Rat.mul Rat.inv in
/-- C8 counterexample: with an asset of 0 decimal places in the store, a
transfer of 3/2 stores and moves exactly 3/2 — the engine never rounds and
never consults `decimalPlaces`, while half-even rounding of 3/2 at 0 places
would give 2. -/
theorem no_rounding_counterexample :
    ((executeTransfer Env.idle baseStore fracParams).2.findTxn
      "frac-key-00001" 7).map Txn.amount = some (3 / 2) ∧
    ((executeTransfer Env.idle baseStore fracParams).2.findAccount 1).map
      Account.balance = some (197 / 2) ∧
    (baseStore.assetTypes.find? (fun pr => pr.1 == 7)).map
      (fun pr => pr.2.decimalPlaces) = some 0 ∧
    specRoundHalfEven (3 / 2) 0 = 2 ∧
    ¬ ((3 / 2 : ℚ) = specRoundHalfEven (3 / 2) 0) := by decide

/-- C7: the lock order.  The engine sorts `[fromAccountId, toAccountId]` by
the handle order and issues the two `findOneAndUpdate` calls in that order:
the first call always touches `min fromAccountId toAccountId`; every issued
call is the debit exactly on the source and the credit exactly on the
destination; and on success both calls were issued. -/
theorem lock_order (env : Env) (s2 : Store) (fa ta : Account) (p : Params) :
    ((applyUpdates env s2 fa ta p).2.head? =
      some (if p.fromAccountId ≤ p.toAccountId then (EntryType.debit, p.fromAccountId)
            else (EntryType.credit, p.toAccountId))) ∧
    (∀ pr ∈ (applyUpdates env s2 fa ta p).2,
      (pr.1 = EntryType.debit → pr.2 = p.fromAccountId) ∧
      (pr.1 = EntryType.credit → pr.2 = p.toAccountId)) ∧
    (∀ pr ∈ (applyUpdates env s2 fa ta p).2.head?,
      pr.2 = min p.fromAccountId p.toAccountId) ∧
    (∀ r, (applyUpdates env s2 fa ta p).1 = .ok r →
      (applyUpdates env s2 fa ta p).2.length = 2) := by
  simp only [applyUpdates]
  by_cases hle : p.fromAccountId ≤ p.toAccountId
  · split
    · split
      · simp [hle, Nat.min_eq_left hle]
      · split <;> simp [hle, Nat.min_eq_left hle]
    · rename_i hcond
      exact absurd (by simp [Nat.min_eq_left hle]) hcond
  · have hlt : p.toAccountId < p.fromAccountId := Nat.lt_of_not_le hle
    split
    · rename_i hcond
      have hmin : min p.fromAccountId p.toAccountId = p.fromAccountId := by
        simpa using hcond
      rw [min_eq_left_iff] at hmin
      exact absurd hmin hle
    · split
      · simp [hle, Nat.min_eq_right (Nat.le_of_lt hlt)]
      · split <;> simp [hle, Nat.min_eq_right (Nat.le_of_lt hlt)]

/-- Witness for C7 on a concrete input pair with the source id smaller: the
first issued update is the debit on the source, i.e. on the smaller id. -/
theorem lock_order_witness :
    (applyUpdates Env.idle baseStore aliceAcct bobAcct topupParams).2.head? =
      some (EntryType.debit, 1) := by
  have h := (lock_order Env.idle baseStore aliceAcct bobAcct topupParams).1
  simpa using h

/-! ### Path characterizations of the engine -/

theorem createTransaction_ok {s : Store} {key : String} {asset fromId toId : Nat}
    {amount : ℚ} {ty : TxType} {d : String} {t : Txn} {s2 : Store}
    (h : s.createTransaction key asset fromId toId amount ty d = .ok (t, s2)) :
    s.findTxn key asset = none ∧ minAmount ≤ amount ∧
    t = { id := s.nextTxId, idempotencyKey := key, assetType := asset,
          fromAccount := fromId, toAccount := toId, amount := amount, type := ty,
          description := d, status := .pending, failureReason := none,
          ledgerEntries := [] } ∧
    s2 = { s with transactions := s.transactions ++ [t], nextTxId := s.nextTxId + 1 } := by
  unfold Store.createTransaction at h
  split at h
  · cases h
  · split at h
    · cases h
    · rename_i hmin hdup
      simp only [Except.ok.injEq, Prod.mk.injEq] at h
      obtain ⟨ht, hs⟩ := h
      refine ⟨?_, not_lt.mp hmin, ht.symm, ?_⟩
      · exact Option.not_isSome_iff_eq_none.mp (by simpa using hdup)
      · rw [← hs, ht]

/-- `find?` over an updated copy of a list whose prefix has no match: the
mapped first match is returned. -/
theorem find?_map_append {α : Type} (p : α → Bool) (g : α → α)
    (hg : ∀ x, p (g x) = p x) (l1 l2 : List α) (t : α)
    (h1 : l1.find? p = none) (ht : p t = true) :
    ((l1 ++ t :: l2).map g).find? p = some (g t) := by
  rw [List.find?_map]
  have hpg : p ∘ g = p := funext hg
  rw [hpg, List.find?_append, h1]
  simp [List.find?_cons, ht]

theorem map_balance_congr {o1 o2 : Option Account}
    (h : o1.map Account.balance = o2.map Account.balance) (amt : ℚ) :
    o1.map (fun a => a.balance - amt) = o2.map (fun a => a.balance - amt) := by
  cases o1 <;> cases o2 <;> simp_all

/-- If the lock order puts the source first and the run of the two updates
fails with the credit error, then the debit has landed and was not undone:
the source balance at the error point is the balance before the updates
minus the amount. -/
theorem applyUpdates_creditFailed {env : Env} {s2 : Store} {fa ta : Account}
    {p : Params} {u : String} {sErr : Store}
    (hbal : env.noBalanceActions = true)
    (hord : p.fromAccountId ≤ p.toAccountId)
    (h : (applyUpdates env s2 fa ta p).1 = .error (.creditFailed u, sErr)) :
    (sErr.findAccount p.fromAccountId).map Account.balance =
      (s2.findAccount p.fromAccountId).map (fun a => a.balance - p.amount) ∧
    (∃ extra, sErr.transactions = s2.transactions ++ extra) := by
  have hbal1 : env.beforeFirstUpdate.all (fun a => !a.touchesBalance) = true := by
    unfold Env.noBalanceActions at hbal
    simp only [Bool.and_eq_true] at hbal
    exact hbal.1.2
  have hbal2 : env.betweenUpdates.all (fun a => !a.touchesBalance) = true := by
    unfold Env.noBalanceActions at hbal
    simp only [Bool.and_eq_true] at hbal
    exact hbal.2
  simp only [applyUpdates] at h
  split at h
  · split at h
    · rename_i e heq
      rw [atomicDebit_err heq] at h
      simp at h
    · rename_i uf sa heq1
      split at h
      · rename_i e heq2
        simp only [Except.error.injEq, Prod.mk.injEq] at h
        obtain ⟨he, hsErr⟩ := h
        subst hsErr
        obtain ⟨b, hb, hble, hact, hu, hsa⟩ := atomicDebit_ok heq1
        constructor
        · have step1 : ((applyActions sa env.betweenUpdates).findAccount
              p.fromAccountId).map Account.balance =
              (sa.findAccount p.fromAccountId).map Account.balance :=
            applyActions_findAccount_balance sa hbal2 _
          have step2 : (sa.findAccount p.fromAccountId).map Account.balance =
              some (b.balance - p.amount) := by
            rw [hsa, findAccount_updateAccount]
            simp [hb]
          have step3 : ((applyActions s2 env.beforeFirstUpdate).findAccount
              p.fromAccountId).map Account.balance =
              (s2.findAccount p.fromAccountId).map Account.balance :=
            applyActions_findAccount_balance s2 hbal1 _
          rw [step1, step2]
          cases hs2 : s2.findAccount p.fromAccountId with
          | none => rw [hs2] at step3; rw [hb] at step3; simp at step3
          | some b2 =>
            rw [hs2] at step3
            rw [hb] at step3
            have hbb : b.balance = b2.balance := by simpa using step3
            simp [hs2, hbb]
        · refine ⟨insertedTxns env.beforeFirstUpdate ++ insertedTxns env.betweenUpdates, ?_⟩
          rw [applyActions_transactions, hsa]
          rw [updateAccount_transactions, applyActions_transactions, List.append_assoc]
      · rename_i ut sc heq2
        simp at h
  · rename_i hcond
    have hmin : min p.fromAccountId p.toAccountId = p.fromAccountId :=
      Nat.min_eq_left hord
    simp [hmin] at hcond

/-- C2 amended: when the unconditional credit fails after the debit landed,
the engine performs no compensation: the final source balance is the initial
balance minus the amount, and the transaction is left failed with the credit
error message as `failureReason` and the raw amount. -/
theorem creditFailure_source_stays_debited (env : Env) (s : Store) (p : Params)
    (u : String) (s' : Store)
    (hbal : env.noBalanceActions = true)
    (hord : p.fromAccountId ≤ p.toAccountId)
    (h : executeTransfer env s p = (.error (.creditFailed u), s')) :
    (s'.findAccount p.fromAccountId).map Account.balance =
      (s.findAccount p.fromAccountId).map (fun a => a.balance - p.amount) ∧
    ∃ ft, s'.findTxn p.idempotencyKey p.assetTypeId = some ft ∧
      ft.status = .failed ∧
      ft.failureReason = some ((WErr.creditFailed u).message) ∧
      ft.amount = p.amount := by
  have hbal0 : env.beforeInsert.all (fun a => !a.touchesBalance) = true := by
    unfold Env.noBalanceActions at hbal
    simp only [Bool.and_eq_true] at hbal
    exact hbal.1.1.1
  simp only [executeTransfer] at h
  split at h
  · simp at h
  · split at h
    · simp at h
    · split at h
      · simp at h
      · split at h
        · simp at h
        · split at h
          · simp at h
          · split at h
            · simp at h
            · split at h
              · simp at h
              · split at h
                · simp at h
                · split at h
                  · simp at h
                  · simp at h
                · rename_i t s2 heq
                  split at h
                  · rename_i e sErr heqAU
                    simp only [Prod.mk.injEq, Except.error.injEq] at h
                    obtain ⟨he, hs'⟩ := h
                    subst he
                    obtain ⟨hnone1, hminle, ht, hs2⟩ := createTransaction_ok heq
                    obtain ⟨hbalance, extra, htxns⟩ :=
                      applyUpdates_creditFailed hbal hord heqAU
                    constructor
                    · rw [← hs']
                      rw [markFailed_findAccount, hbalance]
                      have hs2acc : s2.findAccount p.fromAccountId =
                          (applyActions s env.beforeInsert).findAccount
                            p.fromAccountId := by
                        rw [hs2]
                        rfl
                      rw [hs2acc]
                      exact map_balance_congr
                        (applyActions_findAccount_balance s hbal0 _) _
                    · refine ⟨{ t with
                        status := .failed,
                        failureReason := some ((WErr.creditFailed u).message) },
                        ?_, rfl, rfl, ?_⟩
                      · rw [← hs']
                        unfold Store.markFailed Store.findTxn
                        simp only
                        rw [htxns, hs2]
                        simp only
                        have hshape : (applyActions s env.beforeInsert).transactions
                            ++ [t] ++ extra =
                            (applyActions s env.beforeInsert).transactions
                            ++ t :: extra := by
                          simp
                        rw [hshape]
                        rw [find?_map_append _ _ ?_ _ _ _ ?_ ?_]
                        · have : (t.id == t.id) = true := by simp
                          simp only [this, if_true]
                        · intro x
                          by_cases hx : x.id == t.id <;> simp [hx]
                        · exact hnone1
                        · rw [ht]
                          simp
                      · rw [ht]
                  · rename_i ruf rut rs4 heqAU
                    simp at h

unseal Rat.add Rat.sub Rat.mul Rat.inv in
/-- Witness for C2 amended at the concrete deactivation schedule: alice
(account 1) is left at 90 = 100 minus the amount 10. -/
theorem creditFailure_source_stays_debited_witness :
    ((executeTransfer deactivateDest baseStore topupParams).2.findAccount 1).map
      Account.balance =
      (baseStore.findAccount 1).map (fun a => a.balance - 10) := by
  have h1 : (executeTransfer deactivateDest baseStore topupParams).1 =
      .error (.creditFailed "bob") := by decide
  have h : executeTransfer deactivateDest baseStore topupParams =
      (.error (.creditFailed "bob"),
        (executeTransfer deactivateDest baseStore topupParams).2) := by
    calc executeTransfer deactivateDest baseStore topupParams
        = ((executeTransfer deactivateDest baseStore topupParams).1,
           (executeTransfer deactivateDest baseStore topupParams).2) := rfl
      _ = (.error (.creditFailed "bob"),
           (executeTransfer deactivateDest baseStore topupParams).2) := by rw [h1]
  exact (creditFailure_source_stays_debited deactivateDest baseStore topupParams
    "bob" _ (by decide) (by decide) h).1

/-- A successful run of the two updates only touches accounts: the
transactions of the resulting store are those already present plus the ones
inserted by the interference, and the counters and ledger are untouched. -/
theorem applyUpdates_ok {env : Env} {s2 : Store} {fa ta : Account} {p : Params}
    {uf ut : Account} {s4 : Store}
    (h : (applyUpdates env s2 fa ta p).1 = .ok (uf, ut, s4)) :
    s4.transactions = s2.transactions ++ insertedTxns env.beforeFirstUpdate
      ++ insertedTxns env.betweenUpdates ∧
    s4.nextTxId = s2.nextTxId ∧
    s4.ledger = s2.ledger ∧
    s4.nextEntryId = s2.nextEntryId := by
  simp only [applyUpdates] at h
  split at h
  · split at h
    · simp at h
    · rename_i uf1 sa heq1
      split at h
      · simp at h
      · rename_i ut1 sc heq2
        simp only [Except.ok.injEq, Prod.mk.injEq] at h
        obtain ⟨h1, h2, h3⟩ := h
        subst h3
        obtain ⟨b, _, _, _, _, hsa⟩ := atomicDebit_ok heq1
        obtain ⟨c, _, _, _, hsc⟩ := atomicCredit_ok heq2
        subst hsc
        subst hsa
        simp [applyActions_transactions, applyActions_nextTxId,
          applyActions_ledger, applyActions_nextEntryId, List.append_assoc]
  · split at h
    · simp at h
    · rename_i ut1 sa heq1
      split at h
      · simp at h
      · rename_i uf1 sc heq2
        simp only [Except.ok.injEq, Prod.mk.injEq] at h
        obtain ⟨h1, h2, h3⟩ := h
        subst h3
        obtain ⟨b, _, _, _, hsa⟩ := atomicCredit_ok heq1
        obtain ⟨c, _, _, _, _, hsc⟩ := atomicDebit_ok heq2
        subst hsc
        subst hsa
        simp [applyActions_transactions, applyActions_nextTxId,
          applyActions_ledger, applyActions_nextEntryId, List.append_assoc]

/-- Every successful run leaves the returned transaction stored under its
`(idempotencyKey, assetType)` key: the first lookup of a subsequent call
finds exactly the returned record. -/
theorem ok_findTxn {env : Env} {s : Store} {p : Params} {r : TransferResult}
    {s' : Store} (h : executeTransfer env s p = (.ok r, s')) :
    s'.findTxn p.idempotencyKey p.assetTypeId = some r.transaction := by
  simp only [executeTransfer] at h
  split at h
  · rename_i existing heq
    simp only [Prod.mk.injEq, Except.ok.injEq] at h
    obtain ⟨hr, hs⟩ := h
    subst hs
    rw [← hr]
    simpa using heq
  · split at h
    · simp at h
    · split at h
      · simp at h
      · split at h
        · simp at h
        · split at h
          · simp at h
          · split at h
            · simp at h
            · split at h
              · simp at h
              · split at h
                · simp at h
                · split at h
                  · rename_i raced heqR
                    simp only [Prod.mk.injEq, Except.ok.injEq] at h
                    obtain ⟨hr, hs⟩ := h
                    subst hs
                    rw [← hr]
                    simpa using heqR
                  · simp at h
                · rename_i t s2 heq
                  split at h
                  · simp at h
                  · rename_i uf ut s4 heqAU
                    simp only [Prod.mk.injEq, Except.ok.injEq] at h
                    obtain ⟨hr, hs⟩ := h
                    subst hs
                    rw [← hr]
                    obtain ⟨hnone1, hminle, ht, hs2⟩ := createTransaction_ok heq
                    obtain ⟨htx4, hnid4, hled4, hent4⟩ := applyUpdates_ok heqAU
                    show Store.findTxn _ _ _ = _
                    unfold Store.findTxn Store.saveCompleted
                    simp only [createEntry_transactions]
                    have hs2t : s2.transactions =
                        (applyActions s env.beforeInsert).transactions ++ [t] := by
                      rw [hs2]
                    rw [htx4, hs2t]
                    simp only [List.append_assoc, List.singleton_append]
                    refine (find?_map_append _ _ ?_ _ _ _ ?_ ?_).trans ?_
                    · intro x
                      by_cases hx : x.id == t.id <;> simp [hx]
                    · exact hnone1
                    · rw [ht]
                      simp
                    · have hidt : (t.id == t.id) = true := by simp
                      simp only [hidt, if_true]

/-- C3: idempotent replay.  Whatever a first call returned successfully, a
second call with the same idempotency key and asset type — under any
interference schedule and with any other parameters, in particular a
different amount — returns the same transaction record with
`isIdempotentReplay = true` and leaves the store exactly as it was: no new
transaction, no new ledger entries, no balance changes. -/
theorem idempotent_replay_returns_original (env1 env2 : Env) (s : Store)
    (p q : Params) (r : TransferResult) (s' : Store)
    (hkey : q.idempotencyKey = p.idempotencyKey)
    (hasset : q.assetTypeId = p.assetTypeId)
    (h : executeTransfer env1 s p = (.ok r, s')) :
    executeTransfer env2 s' q =
      (.ok { transaction := r.transaction, isIdempotentReplay := true }, s') := by
  have hf := ok_findTxn h
  unfold executeTransfer
  rw [hkey, hasset, hf]

/-- The stored record of the completed transfer of `topupParams`. -/
def replayedTxn : Txn :=
  { id := 0, idempotencyKey := "topup-key-0001", assetType := 7, fromAccount := 1,
    toAccount := 2, amount := 10, type := .topup, description := "",
    status := .completed, failureReason := none, ledgerEntries := [0, 1] }

unseal Rat.add Rat.sub Rat.mul Rat.inv in
/-- Witness for C3: a concrete top-up followed by a replay that carries a
different amount (999); the second call returns the original transaction
(amount 10) and the unchanged store. -/
theorem idempotent_replay_returns_original_witness :
    executeTransfer Env.idle (executeTransfer Env.idle baseStore topupParams).2
      { topupParams with amount := 999 } =
      (.ok { transaction := replayedTxn, isIdempotentReplay := true },
        (executeTransfer Env.idle baseStore topupParams).2) := by
  have h1 : (executeTransfer Env.idle baseStore topupParams).1 =
      .ok { transaction := replayedTxn, isIdempotentReplay := false } := by decide
  have h : executeTransfer Env.idle baseStore topupParams =
      (.ok { transaction := replayedTxn, isIdempotentReplay := false },
        (executeTransfer Env.idle baseStore topupParams).2) := by
    calc executeTransfer Env.idle baseStore topupParams
        = ((executeTransfer Env.idle baseStore topupParams).1,
           (executeTransfer Env.idle baseStore topupParams).2) := rfl
      _ = (.ok { transaction := replayedTxn, isIdempotentReplay := false },
           (executeTransfer Env.idle baseStore topupParams).2) := by rw [h1]
  exact idempotent_replay_returns_original Env.idle Env.idle baseStore topupParams
    { topupParams with amount := 999 } _ _ rfl rfl h

/-- C4: the duplicate-key backoff path.  When the first lookup saw nothing,
the inputs pass validation, and by insert time a transaction with the same
`(idempotencyKey, assetType)` is visible (a concurrent worker won the race),
the engine re-reads after the backoff and returns the found transaction as a
replay, or fails with the conflict error when none is visible; in both cases
the final store is exactly the interference-modified store — the engine has
inserted no transaction of its own. -/
theorem duplicateKey_backoff_reread (env : Env) (s : Store) (p : Params)
    (fa ta : Account) (t0 : Txn)
    (hnone : s.findTxn p.idempotencyKey p.assetTypeId = none)
    (hamt : 0 < p.amount) (hmin : minAmount ≤ p.amount)
    (hfa : s.findAccount p.fromAccountId = some fa)
    (hta : s.findAccount p.toAccountId = some ta)
    (hfact : fa.isActive = true) (htact : ta.isActive = true)
    (hfasset : fa.assetType = p.assetTypeId) (htasset : ta.assetType = p.assetTypeId)
    (hdup : (applyActions s env.beforeInsert).findTxn p.idempotencyKey
      p.assetTypeId = some t0) :
    executeTransfer env s p =
      match (applyActions (applyActions s env.beforeInsert) env.backoff).findTxn
          p.idempotencyKey p.assetTypeId with
      | some raced =>
          (.ok { transaction := raced, isIdempotentReplay := true },
            applyActions (applyActions s env.beforeInsert) env.backoff)
      | none =>
          (.error .txConflict,
            applyActions (applyActions s env.beforeInsert) env.backoff) := by
  simp only [executeTransfer]
  rw [hnone, if_neg (not_le.mpr hamt), hfa, hta]
  dsimp only
  rw [if_neg (by simp [hfact]), if_neg (by simp [htact]),
    if_neg (by simp [hfasset, htasset])]
  simp only [Store.createTransaction]
  rw [if_neg (not_lt.mpr hmin), if_pos (by simp [hdup])]

unseal Rat.add Rat.sub Rat.mul Rat.inv in
/-- Witness for C4 at a concrete race: the worker that inserted `racedTxn`
between lookup and insert wins; the call returns it as a replay and leaves
only the interference in the store. -/
theorem duplicateKey_backoff_reread_witness :
    executeTransfer raceEnv baseStore raceParams =
      (.ok { transaction := racedTxn, isIdempotentReplay := true },
        applyActions (applyActions baseStore raceEnv.beforeInsert) raceEnv.backoff) := by
  have h := duplicateKey_backoff_reread raceEnv baseStore raceParams aliceAcct bobAcct
    racedTxn (by decide) (by decide) (by decide) (by decide) (by decide) (by decide)
    (by decide) (by decide) (by decide) (by decide)
  rw [h]
  rfl

/-- Mapping an id-guarded rewrite over transactions whose ids are all below
the fresh id leaves the list unchanged. -/
theorem map_if_fresh (l : List Txn) (nid : Nat) (F : Txn → Txn)
    (hwf : ∀ t ∈ l, t.id < nid) :
    (l.map fun t => if t.id == nid then F t else t) = l := by
  induction l with
  | nil => rfl
  | cons a l ih =>
    have ha : ¬ ((a.id == nid) = true) := by
      have := hwf a (by simp)
      simp only [beq_iff_eq]
      omega
    simp only [List.map_cons, if_neg ha]
    rw [ih fun t ht => hwf t (by simp [ht])]

/-- A failed run of the two updates under a schedule that never touches the
transactions collection leaves it and the fresh-id counter unchanged. -/
theorem applyUpdates_err_noTxn {env : Env} {s2 : Store} {fa ta : Account}
    {p : Params} {e : WErr} {sErr : Store}
    (henv : env.noTxnActions = true)
    (h : (applyUpdates env s2 fa ta p).1 = .error (e, sErr)) :
    sErr.transactions = s2.transactions ∧ sErr.nextTxId = s2.nextTxId := by
  have hbfu : env.beforeFirstUpdate.all (fun a => !a.touchesTxns) = true := by
    unfold Env.noTxnActions at henv
    simp only [Bool.and_eq_true] at henv
    exact henv.1.2
  have hbu : env.betweenUpdates.all (fun a => !a.touchesTxns) = true := by
    unfold Env.noTxnActions at henv
    simp only [Bool.and_eq_true] at henv
    exact henv.2
  simp only [applyUpdates] at h
  split at h
  · split at h
    · simp only [Except.error.injEq, Prod.mk.injEq] at h
      obtain ⟨he, hs⟩ := h
      subst hs
      exact ⟨applyActions_transactions_of_noTxn s2 hbfu, applyActions_nextTxId _ _⟩
    · rename_i uf sa heq1
      split at h
      · simp only [Except.error.injEq, Prod.mk.injEq] at h
        obtain ⟨he, hs⟩ := h
        subst hs
        obtain ⟨b, _, _, _, _, hsa⟩ := atomicDebit_ok heq1
        subst hsa
        constructor
        · rw [applyActions_transactions_of_noTxn _ hbu, updateAccount_transactions,
            applyActions_transactions_of_noTxn _ hbfu]
        · rw [applyActions_nextTxId, updateAccount_nextTxId, applyActions_nextTxId]
      · rename_i ut sc heq2
        simp at h
  · split at h
    · simp only [Except.error.injEq, Prod.mk.injEq] at h
      obtain ⟨he, hs⟩ := h
      subst hs
      exact ⟨applyActions_transactions_of_noTxn s2 hbfu, applyActions_nextTxId _ _⟩
    · rename_i ut sa heq1
      split at h
      · simp only [Except.error.injEq, Prod.mk.injEq] at h
        obtain ⟨he, hs⟩ := h
        subst hs
        obtain ⟨b, _, _, _, hsa⟩ := atomicCredit_ok heq1
        subst hsa
        constructor
        · rw [applyActions_transactions_of_noTxn _ hbu, updateAccount_transactions,
            applyActions_transactions_of_noTxn _ hbfu]
        · rw [applyActions_nextTxId, updateAccount_nextTxId, applyActions_nextTxId]
      · rename_i uf sc heq2
        simp at h

/-- C5: the transaction state machine.  Under any schedule that does not
itself insert transactions, and over any store whose transaction ids are
consistent with the fresh-id counter: (1) every transaction already in a
terminal (non-pending) status survives the run unchanged — no engine step
leaves `completed` or `failed`; (2) the only transaction a run adds ends
`completed` exactly when the run returns the fresh success, and otherwise
ends `failed` with `failureReason` set to the propagated error message; and
(3) every transaction is created with status `pending`. -/
theorem transaction_state_machine (env : Env) (s : Store) (p : Params)
    (henv : env.noTxnActions = true) (hwf : s.wf = true) :
    (∀ t ∈ s.transactions, t.status ≠ .pending →
      t ∈ (executeTransfer env s p).2.transactions) ∧
    (∀ t, t ∈ (executeTransfer env s p).2.transactions → t ∉ s.transactions →
      (t.status = .completed ∧
        (executeTransfer env s p).1 =
          .ok { transaction := t, isIdempotentReplay := false }) ∨
      (t.status = .failed ∧
        ∃ e, (executeTransfer env s p).1 = .error e ∧
          t.failureReason = some e.message)) ∧
    (∀ (s0 : Store) (key : String) (asset fromId toId : Nat) (amount : ℚ)
      (ty : TxType) (d : String) (t : Txn) (s2 : Store),
      s0.createTransaction key asset fromId toId amount ty d = .ok (t, s2) →
      t.status = .pending) := by
  have hbi : env.beforeInsert.all (fun a => !a.touchesTxns) = true := by
    unfold Env.noTxnActions at henv
    simp only [Bool.and_eq_true] at henv
    exact henv.1.1.1
  have hbk : env.backoff.all (fun a => !a.touchesTxns) = true := by
    unfold Env.noTxnActions at henv
    simp only [Bool.and_eq_true] at henv
    exact henv.1.1.2
  have hwf2 : ∀ t ∈ s.transactions, t.id < s.nextTxId := by
    intro t ht
    have := List.all_eq_true.mp hwf t ht
    simpa using this
  refine ?_
  have hpending : ∀ (s0 : Store) (key : String) (asset fromId toId : Nat)
      (amount : ℚ) (ty : TxType) (d : String) (t : Txn) (s2 : Store),
      s0.createTransaction key asset fromId toId amount ty d = .ok (t, s2) →
      t.status = .pending := by
    intro s0 key asset fromId toId amount ty d t s2 hc
    obtain ⟨_, _, ht, _⟩ := createTransaction_ok hc
    rw [ht]
  rcases hrun : executeTransfer env s p with ⟨res, sFin⟩
  have hsame : ∀ (hfin : sFin.transactions = s.transactions),
      (∀ t ∈ s.transactions, t.status ≠ .pending → t ∈ sFin.transactions) ∧
      (∀ t, t ∈ sFin.transactions → t ∉ s.transactions →
        (t.status = .completed ∧ res = .ok { transaction := t, isIdempotentReplay := false }) ∨
        (t.status = .failed ∧ ∃ e, res = .error e ∧ t.failureReason = some e.message)) := by
    intro hfin
    constructor
    · intro t ht _
      rw [hfin]
      exact ht
    · intro t ht hnot
      rw [hfin] at ht
      exact absurd ht hnot
  simp only [hrun]
  simp only [executeTransfer] at hrun
  split at hrun
  · simp only [Prod.mk.injEq] at hrun
    exact ⟨(hsame (by rw [← hrun.2])).1, (hsame (by rw [← hrun.2])).2, hpending⟩
  · split at hrun
    · simp only [Prod.mk.injEq] at hrun
      exact ⟨(hsame (by rw [← hrun.2])).1, (hsame (by rw [← hrun.2])).2, hpending⟩
    · split at hrun
      · simp only [Prod.mk.injEq] at hrun
        exact ⟨(hsame (by rw [← hrun.2])).1, (hsame (by rw [← hrun.2])).2, hpending⟩
      · split at hrun
        · simp only [Prod.mk.injEq] at hrun
          exact ⟨(hsame (by rw [← hrun.2])).1, (hsame (by rw [← hrun.2])).2, hpending⟩
        · split at hrun
          · simp only [Prod.mk.injEq] at hrun
            exact ⟨(hsame (by rw [← hrun.2])).1, (hsame (by rw [← hrun.2])).2, hpending⟩
          · split at hrun
            · simp only [Prod.mk.injEq] at hrun
              exact ⟨(hsame (by rw [← hrun.2])).1, (hsame (by rw [← hrun.2])).2, hpending⟩
            · split at hrun
              · simp only [Prod.mk.injEq] at hrun
                exact ⟨(hsame (by rw [← hrun.2])).1, (hsame (by rw [← hrun.2])).2, hpending⟩
              · split at hrun
                · -- store-validation failure of the insert
                  simp only [Prod.mk.injEq] at hrun
                  have hfin : sFin.transactions = s.transactions := by
                    rw [← hrun.2]
                    exact applyActions_transactions_of_noTxn s hbi
                  exact ⟨(hsame hfin).1, (hsame hfin).2, hpending⟩
                · -- duplicate-key path
                  split at hrun
                  · simp only [Prod.mk.injEq] at hrun
                    have hfin : sFin.transactions = s.transactions := by
                      rw [← hrun.2]
                      rw [applyActions_transactions_of_noTxn _ hbk,
                        applyActions_transactions_of_noTxn _ hbi]
                    exact ⟨(hsame hfin).1, (hsame hfin).2, hpending⟩
                  · simp only [Prod.mk.injEq] at hrun
                    have hfin : sFin.transactions = s.transactions := by
                      rw [← hrun.2]
                      rw [applyActions_transactions_of_noTxn _ hbk,
                        applyActions_transactions_of_noTxn _ hbi]
                    exact ⟨(hsame hfin).1, (hsame hfin).2, hpending⟩
                · -- the pending transaction was created
                  rename_i t s2 heq
                  obtain ⟨hnone1, hminle, ht, hs2⟩ := createTransaction_ok heq
                  have hs1txns : (applyActions s env.beforeInsert).transactions =
                      s.transactions := applyActions_transactions_of_noTxn s hbi
                  have hs1nid : (applyActions s env.beforeInsert).nextTxId =
                      s.nextTxId := applyActions_nextTxId _ _
                  have htid : t.id = s.nextTxId := by
                    rw [ht]
                    exact hs1nid
                  have hs2txns : s2.transactions = s.transactions ++ [t] := by
                    rw [hs2]
                    simp [hs1txns]
                  split at hrun
                  · -- failure after creation: the catch marks the record failed
                    rename_i e sErr heqAU
                    simp only [Prod.mk.injEq] at hrun
                    obtain ⟨hres, hsfin⟩ := hrun
                    obtain ⟨herrtx, _⟩ := applyUpdates_err_noTxn henv heqAU
                    have hfintxns : sFin.transactions =
                        s.transactions ++ [{ t with
                          status := .failed,
                          failureReason := some e.message }] := by
                      rw [← hsfin]
                      show (sErr.transactions.map _) = _
                      rw [herrtx, hs2txns, List.map_append]
                      rw [map_if_fresh s.transactions t.id _ (htid ▸ hwf2)]
                      have hidt : (t.id == t.id) = true := by simp
                      simp [hidt]
                    refine ⟨?_, ?_, hpending⟩
                    · intro t2 ht2 _
                      rw [hfintxns]
                      exact List.mem_append_left _ ht2
                    · intro t2 ht2 hnot
                      rw [hfintxns] at ht2
                      rcases List.mem_append.mp ht2 with hin | hin
                      · exact absurd hin hnot
                      · right
                        simp only [List.mem_singleton] at hin
                        subst hin
                        exact ⟨rfl, e, by rw [← hres], rfl⟩
                  · -- success: the record is saved as completed
                    rename_i uf ut s4 heqAU
                    simp only [Prod.mk.injEq] at hrun
                    obtain ⟨hres, hsfin⟩ := hrun
                    obtain ⟨htx4, _, _, _⟩ := applyUpdates_ok heqAU
                    have hAnil : insertedTxns env.beforeFirstUpdate = [] := by
                      apply insertedTxns_of_noTxn
                      unfold Env.noTxnActions at henv
                      simp only [Bool.and_eq_true] at henv
                      exact henv.1.2
                    have hBnil : insertedTxns env.betweenUpdates = [] := by
                      apply insertedTxns_of_noTxn
                      unfold Env.noTxnActions at henv
                      simp only [Bool.and_eq_true] at henv
                      exact henv.2
                    have hfintxns : sFin.transactions =
                        s.transactions ++ [{ t with
                          status := .completed,
                          ledgerEntries :=
                            [(s4.createEntry t.id p.fromAccountId p.assetTypeId
                                .debit p.amount uf.balance p.description).1.id,
                             ((s4.createEntry t.id p.fromAccountId p.assetTypeId
                                .debit p.amount uf.balance p.description).2.createEntry
                                t.id p.toAccountId p.assetTypeId
                                .credit p.amount ut.balance p.description).1.id] }] := by
                      rw [← hsfin]
                      show ((((s4.createEntry _ _ _ _ _ _ _).2.createEntry
                        _ _ _ _ _ _ _).2).transactions.map _) = _
                      simp only [createEntry_transactions]
                      rw [htx4, hAnil, hBnil, hs2txns]
                      simp only [List.append_nil]
                      rw [List.map_append]
                      rw [map_if_fresh s.transactions t.id _ (htid ▸ hwf2)]
                      have hidt : (t.id == t.id) = true := by simp
                      simp [hidt]
                    refine ⟨?_, ?_, hpending⟩
                    · intro t2 ht2 _
                      rw [hfintxns]
                      exact List.mem_append_left _ ht2
                    · intro t2 ht2 hnot
                      rw [hfintxns] at ht2
                      rcases List.mem_append.mp ht2 with hin | hin
                      · exact absurd hin hnot
                      · left
                        simp only [List.mem_singleton] at hin
                        subst hin
                        exact ⟨rfl, by rw [← hres]⟩

/-- Witness for C5: a store already holding a completed transaction, run
with a replayed key: the completed record survives in the final store. -/
theorem transaction_state_machine_witness :
    storedTxn ∈ (executeTransfer Env.idle replayStore invalidParams).2.transactions :=
  (transaction_state_machine Env.idle replayStore invalidParams (by decide)
    (by decide)).1 storedTxn (by decide) (by decide)

theorem createTransaction_succeeds {s : Store} {key : String} {asset fromId toId : Nat}
    {amount : ℚ} {ty : TxType} {d : String}
    (hmin : minAmount ≤ amount) (hkey : s.findTxn key asset = none) :
    s.createTransaction key asset fromId toId amount ty d =
      .ok ({ id := s.nextTxId, idempotencyKey := key, assetType := asset,
             fromAccount := fromId, toAccount := toId, amount := amount, type := ty,
             description := d, status := .pending, failureReason := none,
             ledgerEntries := [] },
           { s with
             transactions := s.transactions ++
               [{ id := s.nextTxId, idempotencyKey := key, assetType := asset,
                  fromAccount := fromId, toAccount := toId, amount := amount,
                  type := ty, description := d, status := .pending,
                  failureReason := none, ledgerEntries := [] }],
             nextTxId := s.nextTxId + 1 }) := by
  unfold Store.createTransaction
  rw [if_neg (not_lt.mpr hmin), if_neg (by simp [hkey])]

theorem atomicDebit_succeeds {s : Store} {acct : Account} {acctId : Nat}
    {amount : ℚ} {b : Account}
    (hb : s.findAccount acctId = some b) (hbal : amount ≤ b.balance)
    (hact : b.isActive = true) :
    atomicDebit s acct acctId amount =
      .ok ({ b with balance := b.balance - amount },
        s.updateAccount acctId fun a => { a with balance := a.balance - amount }) := by
  unfold atomicDebit Store.condUpdate
  rw [hb]
  dsimp only
  rw [if_pos (by simp [hbal, hact])]

theorem atomicCredit_succeeds {s : Store} {acct : Account} {acctId : Nat}
    {amount : ℚ} {b : Account}
    (hb : s.findAccount acctId = some b) (hact : b.isActive = true) :
    atomicCredit s acct acctId amount =
      .ok ({ b with balance := b.balance + amount },
        s.updateAccount acctId fun a => { a with balance := a.balance + amount }) := by
  unfold atomicCredit Store.condUpdate
  rw [hb]
  dsimp only
  rw [if_pos (by simp [hact])]

/-- C6 amended: `executeTransfer` performs no self-transfer check.  A call
with `fromAccountId = toAccountId` proceeds through the normal flow; when
the account exists, is active, matches the asset and covers the amount, the
call completes fresh, the balance is unchanged, and two ledger entries are
written. -/
theorem selfTransfer_completes (s : Store) (p : Params) (fa : Account)
    (hself : p.fromAccountId = p.toAccountId)
    (hkey : s.findTxn p.idempotencyKey p.assetTypeId = none)
    (hamt : 0 < p.amount) (hmin : minAmount ≤ p.amount)
    (hfa : s.findAccount p.fromAccountId = some fa)
    (hact : fa.isActive = true) (hasset : fa.assetType = p.assetTypeId)
    (hbal : p.amount ≤ fa.balance) :
    ∃ res s2,
      executeTransfer Env.idle s p = (.ok res, s2) ∧
      res.isIdempotentReplay = false ∧
      res.transaction.status = .completed ∧
      (s2.findAccount p.fromAccountId).map Account.balance = some fa.balance ∧
      s2.ledger.length = s.ledger.length + 2 := by
  simp only [executeTransfer]
  rw [← hself]
  rw [hkey, if_neg (not_le.mpr hamt), hfa]
  dsimp only
  rw [if_neg (by simp [hact]), if_neg (by simp [hact]), if_neg (by simp [hasset])]
  simp only [Env.idle_beforeInsert, applyActions_nil]
  cases hc : s.createTransaction p.idempotencyKey p.assetTypeId p.fromAccountId
      p.fromAccountId p.amount p.type p.description with
  | error e =>
    rw [createTransaction_succeeds hmin hkey] at hc
    cases hc
  | ok pr =>
    obtain ⟨t, s2⟩ := pr
    dsimp only
    obtain ⟨hnone1, _, ht, hs2⟩ := createTransaction_ok hc
    have hfa2 : s2.findAccount p.fromAccountId = some fa := by
      rw [hs2]
      exact hfa
    have hled2 : s2.ledger = s.ledger := by rw [hs2]
    have hfa3 : (s2.updateAccount p.fromAccountId fun a =>
        { a with balance := a.balance - p.amount }).findAccount p.fromAccountId =
        some { fa with balance := fa.balance - p.amount } := by
      rw [findAccount_updateAccount]
      simp [hfa2]
    have hau : (applyUpdates Env.idle s2 fa fa p).1 =
        .ok ({ fa with balance := fa.balance - p.amount },
          { fa with balance := fa.balance - p.amount + p.amount },
          (s2.updateAccount p.fromAccountId fun a =>
            { a with balance := a.balance - p.amount }).updateAccount p.fromAccountId
            fun a => { a with balance := a.balance + p.amount }) := by
      simp only [applyUpdates, Env.idle_beforeFirstUpdate, Env.idle_betweenUpdates,
        applyActions_nil]
      rw [← hself, if_pos (by simp)]
      rw [atomicDebit_succeeds hfa2 hbal hact]
      dsimp only
      rw [atomicCredit_succeeds hfa3 hact]
    rw [hau]
    dsimp only
    refine ⟨_, _, rfl, rfl, rfl, ?_, ?_⟩
    · rw [saveCompleted_findAccount, createEntry_findAccount, createEntry_findAccount]
      rw [findAccount_updateAccount]
      simp only [if_pos rfl, hfa3]
      simp [sub_add_cancel]
    · rw [saveCompleted_ledger, createEntry_ledger, createEntry_ledger]
      simp [hled2]

unseal Rat.add Rat.sub Rat.mul Rat.inv in
/-- Witness for C6 amended at the concrete self-transfer input. -/
theorem selfTransfer_completes_witness :
    ∃ res s2,
      executeTransfer Env.idle baseStore selfParams = (.ok res, s2) ∧
      res.isIdempotentReplay = false ∧
      res.transaction.status = .completed ∧
      (s2.findAccount 1).map Account.balance = some aliceAcct.balance ∧
      s2.ledger.length = baseStore.ledger.length + 2 :=
  selfTransfer_completes baseStore selfParams aliceAcct (by decide) (by decide)
    (by decide) (by decide) (by decide) (by decide) (by decide) (by decide)

theorem map_balance_congr_add {o1 o2 : Option Account}
    (h : o1.map Account.balance = o2.map Account.balance) (amt : ℚ) :
    o1.map (fun a => a.balance + amt) = o2.map (fun a => a.balance + amt) := by
  cases o1 <;> cases o2 <;> simp_all

theorem map_balance_shift {o : Option Account} {x : ℚ} (f : ℚ → ℚ)
    (h : o.map Account.balance = some x) :
    o.map (fun a => f a.balance) = some (f x) := by
  cases o <;> simp_all

/-- A successful run of the two updates moves exactly the raw amount: the
source loses `p.amount` and the destination gains `p.amount`, relative to
the balances before the updates, whenever the interference does not itself
move balances and the two accounts are distinct. -/
theorem applyUpdates_ok_balances {env : Env} {s2 : Store} {fa ta : Account}
    {p : Params} {uf ut : Account} {s4 : Store}
    (hbal : env.noBalanceActions = true) (hne : p.fromAccountId ≠ p.toAccountId)
    (h : (applyUpdates env s2 fa ta p).1 = .ok (uf, ut, s4)) :
    ((s4.findAccount p.fromAccountId).map Account.balance =
      (s2.findAccount p.fromAccountId).map (fun a => a.balance - p.amount)) ∧
    ((s4.findAccount p.toAccountId).map Account.balance =
      (s2.findAccount p.toAccountId).map (fun a => a.balance + p.amount)) := by
  have hbal1 : env.beforeFirstUpdate.all (fun a => !a.touchesBalance) = true := by
    unfold Env.noBalanceActions at hbal
    simp only [Bool.and_eq_true] at hbal
    exact hbal.1.2
  have hbal2 : env.betweenUpdates.all (fun a => !a.touchesBalance) = true := by
    unfold Env.noBalanceActions at hbal
    simp only [Bool.and_eq_true] at hbal
    exact hbal.2
  simp only [applyUpdates] at h
  split at h
  · split at h
    · simp at h
    · rename_i uf1 sa heq1
      split at h
      · simp at h
      · rename_i ut1 sc heq2
        simp only [Except.ok.injEq, Prod.mk.injEq] at h
        obtain ⟨h1, h2, h3⟩ := h
        subst h3
        obtain ⟨b, hb, _, _, _, hsa⟩ := atomicDebit_ok heq1
        obtain ⟨c, hc, _, _, hsc⟩ := atomicCredit_ok heq2
        constructor
        · have hL : (sc.findAccount p.fromAccountId).map Account.balance =
              some (b.balance - p.amount) := by
            rw [hsc, findAccount_updateAccount, if_neg hne]
            rw [applyActions_findAccount_balance _ hbal2]
            rw [hsa, findAccount_updateAccount, if_pos rfl, hb]
            rfl
          have hR : (s2.findAccount p.fromAccountId).map Account.balance =
              some b.balance := by
            rw [← applyActions_findAccount_balance s2 hbal1 p.fromAccountId, hb]
            rfl
          rw [hL]
          exact (map_balance_shift (fun x => x - p.amount) hR).symm
        · have hL : (sc.findAccount p.toAccountId).map Account.balance =
              some (c.balance + p.amount) := by
            rw [hsc, findAccount_updateAccount, if_pos rfl, hc]
            rfl
          have hR : (s2.findAccount p.toAccountId).map Account.balance =
              some c.balance := by
            have e1 : ((applyActions sa env.betweenUpdates).findAccount
                p.toAccountId).map Account.balance = some c.balance := by
              rw [hc]
              rfl
            rw [applyActions_findAccount_balance _ hbal2] at e1
            rw [hsa, findAccount_updateAccount,
              if_neg (fun hh => hne hh.symm)] at e1
            rw [applyActions_findAccount_balance _ hbal1] at e1
            exact e1
          rw [hL]
          exact (map_balance_shift (fun x => x + p.amount) hR).symm
  · split at h
    · simp at h
    · rename_i ut1 sa heq1
      split at h
      · simp at h
      · rename_i uf1 sc heq2
        simp only [Except.ok.injEq, Prod.mk.injEq] at h
        obtain ⟨h1, h2, h3⟩ := h
        subst h3
        obtain ⟨c, hc, _, _, hsa⟩ := atomicCredit_ok heq1
        obtain ⟨b, hb, _, _, _, hsc⟩ := atomicDebit_ok heq2
        constructor
        · have hL : (sc.findAccount p.fromAccountId).map Account.balance =
              some (b.balance - p.amount) := by
            rw [hsc, findAccount_updateAccount, if_pos rfl, hb]
            rfl
          have hR : (s2.findAccount p.fromAccountId).map Account.balance =
              some b.balance := by
            have e1 : ((applyActions sa env.betweenUpdates).findAccount
                p.fromAccountId).map Account.balance = some b.balance := by
              rw [hb]
              rfl
            rw [applyActions_findAccount_balance _ hbal2] at e1
            rw [hsa, findAccount_updateAccount, if_neg hne] at e1
            rw [applyActions_findAccount_balance _ hbal1] at e1
            exact e1
          rw [hL]
          exact (map_balance_shift (fun x => x - p.amount) hR).symm
        · have hL : (sc.findAccount p.toAccountId).map Account.balance =
              some (c.balance + p.amount) := by
            rw [hsc, findAccount_updateAccount, if_neg (fun hh => hne hh.symm)]
            rw [applyActions_findAccount_balance _ hbal2]
            rw [hsa, findAccount_updateAccount, if_pos rfl, hc]
            rfl
          have hR : (s2.findAccount p.toAccountId).map Account.balance =
              some c.balance := by
            rw [← applyActions_findAccount_balance s2 hbal1 p.toAccountId, hc]
            rfl
          rw [hL]
          exact (map_balance_shift (fun x => x + p.amount) hR).symm

/-- C8 amended: the engine performs no rounding.  On every fresh successful
execution the raw input amount is stored in the Transaction record, written
in both ledger entries, and moved on both balances; and a non-positive
amount is rejected at entry with the amount error and an unchanged store.
`decimalPlaces` plays no role: the statement holds for every store, whatever
its asset types say. -/
theorem raw_amount_used_throughout (env : Env) (s : Store) (p : Params) :
    (∀ res s', executeTransfer env s p = (.ok res, s') →
      res.isIdempotentReplay = false →
      res.transaction.amount = p.amount ∧
      (∃ de ce, s'.ledger = s.ledger ++ [de, ce] ∧
        de.entryType = .debit ∧ ce.entryType = .credit ∧
        de.amount = p.amount ∧ ce.amount = p.amount) ∧
      (env.noBalanceActions = true → p.fromAccountId ≠ p.toAccountId →
        ((s'.findAccount p.fromAccountId).map Account.balance =
          (s.findAccount p.fromAccountId).map (fun a => a.balance - p.amount)) ∧
        ((s'.findAccount p.toAccountId).map Account.balance =
          (s.findAccount p.toAccountId).map (fun a => a.balance + p.amount)))) ∧
    (s.findTxn p.idempotencyKey p.assetTypeId = none → p.amount ≤ 0 →
      executeTransfer env s p = (.error .amountNotPositive, s)) := by
  constructor
  · intro res s' h hfresh
    simp only [executeTransfer] at h
    split at h
    · simp only [Prod.mk.injEq, Except.ok.injEq] at h
      rw [← h.1] at hfresh
      simp at hfresh
    · split at h
      · simp at h
      · split at h
        · simp at h
        · split at h
          · simp at h
          · split at h
            · simp at h
            · split at h
              · simp at h
              · split at h
                · simp at h
                · split at h
                  · simp at h
                  · split at h
                    · simp only [Prod.mk.injEq, Except.ok.injEq] at h
                      rw [← h.1] at hfresh
                      simp at hfresh
                    · simp at h
                  · rename_i t s2 heq
                    split at h
                    · simp at h
                    · rename_i uf ut s4 heqAU
                      simp only [Prod.mk.injEq, Except.ok.injEq] at h
                      obtain ⟨hr, hs⟩ := h
                      obtain ⟨hnone1, hminle, ht, hs2⟩ := createTransaction_ok heq
                      obtain ⟨htx4, hnid4, hled4, hent4⟩ := applyUpdates_ok heqAU
                      have hled2 : s2.ledger = s.ledger := by
                        rw [hs2]
                        exact applyActions_ledger _ _
                      have hacc2 : ∀ j, s2.findAccount j =
                          (applyActions s env.beforeInsert).findAccount j := by
                        intro j
                        rw [hs2]
                        rfl
                      refine ⟨?_, ?_, ?_⟩
                      · rw [← hr]
                        show t.amount = p.amount
                        rw [ht]
                      · refine ⟨(s4.createEntry t.id p.fromAccountId p.assetTypeId
                            .debit p.amount uf.balance p.description).1,
                          ((s4.createEntry t.id p.fromAccountId p.assetTypeId
                            .debit p.amount uf.balance p.description).2.createEntry
                            t.id p.toAccountId p.assetTypeId
                            .credit p.amount ut.balance p.description).1,
                          ?_, rfl, rfl, rfl, rfl⟩
                        rw [← hs]
                        simp only [saveCompleted_ledger, createEntry_ledger]
                        rw [hled4, hled2]
                        simp [List.append_assoc]
                      · intro hbalenv hne
                        have hbI : env.beforeInsert.all
                            (fun a => !a.touchesBalance) = true := by
                          unfold Env.noBalanceActions at hbalenv
                          simp only [Bool.and_eq_true] at hbalenv
                          exact hbalenv.1.1.1
                        obtain ⟨hfrom, hto⟩ :=
                          applyUpdates_ok_balances hbalenv hne heqAU
                        constructor
                        · rw [← hs]
                          simp only [saveCompleted_findAccount,
                            createEntry_findAccount]
                          rw [hfrom]
                          apply map_balance_congr
                          rw [hacc2]
                          exact applyActions_findAccount_balance s hbI _
                        · rw [← hs]
                          simp only [saveCompleted_findAccount,
                            createEntry_findAccount]
                          rw [hto]
                          apply map_balance_congr_add
                          rw [hacc2]
                          exact applyActions_findAccount_balance s hbI _
  · intro hnone hle
    simp only [executeTransfer]
    rw [hnone, if_pos hle]

/-- The stored record of the completed fractional transfer of `fracParams`. -/
def fracTxn : Txn :=
  { id := 0, idempotencyKey := "frac-key-00001", assetType := 7, fromAccount := 1,
    toAccount := 2, amount := 3 / 2, type := .topup, description := "",
    status := .completed, failureReason := none, ledgerEntries := [0, 1] }

unseal Rat.add Rat.sub Rat.mul Rat.inv in
/-- Witness for C8 amended: the fractional transfer of 3/2 from account 1 to
account 2 stores amount 3/2 in the transaction record unrounded. -/
theorem raw_amount_used_throughout_witness :
    ((executeTransfer Env.idle baseStore fracParams).1.map
      TransferResult.transaction).map Txn.amount = .ok (3 / 2) := by
  have h1 : (executeTransfer Env.idle baseStore fracParams).1 =
      .ok { transaction := fracTxn, isIdempotentReplay := false } := by decide
  have h : executeTransfer Env.idle baseStore fracParams =
      (.ok { transaction := fracTxn, isIdempotentReplay := false },
        (executeTransfer Env.idle baseStore fracParams).2) := by
    calc executeTransfer Env.idle baseStore fracParams
        = ((executeTransfer Env.idle baseStore fracParams).1,
           (executeTransfer Env.idle baseStore fracParams).2) := rfl
      _ = (.ok { transaction := fracTxn, isIdempotentReplay := false },
           (executeTransfer Env.idle baseStore fracParams).2) := by rw [h1]
  have hamt := ((raw_amount_used_throughout Env.idle baseStore fracParams).1
    { transaction := fracTxn, isIdempotentReplay := false }
    (executeTransfer Env.idle baseStore fracParams).2 h rfl).1
  rw [h1]
  simp only [Except.map]
  rw [show fracTxn.amount = fracParams.amount from hamt]
  rfl

end Wallet
